import Mathlib

/-!
Verification of the hotsos ycheck property engine
(`hotsos/core/ycheck/engine/properties/common.py`).

The development shallowly embeds the parts of the module the claims are
about: Python values with their truthiness, the `PropertyCache` object,
the `PropertyCacheRefResolver` reference grammar and resolution, the
run-scoped memoisation of `YPropertyBase` dynamic lookups, and the
`LogicalCollectionHandler` tree evaluator.  Python dicts are embedded as
insertion-ordered association lists; exceptions as `Except`.
-/

/-- Embedding of the Python values the module manipulates.  `obj cls n`
is an instance of the class whose repr is `cls`, with identity `n`
(two objects are the same Python object iff their ids agree).
`pyclass r` is a class object with repr `r`. -/
inductive Val where
  | none
  | bool (b : Bool)
  | int (n : Int)
  | str (s : String)
  | vlist (l : List Val)
  | dict (d : List (String × Val))
  | pyclass (r : String)
  | obj (cls : String) (id : Nat)

/-- Python truthiness of an embedded value. -/
def truthy : Val → Bool
  | Val.none => false
  | Val.bool b => b
  | Val.int n => n != 0
  | Val.str s => s != ""
  | Val.vlist l => !l.isEmpty
  | Val.dict d => !d.isEmpty
  | Val.pyclass _ => true
  | Val.obj _ _ => true

/-- Models `type(v) == dict` in Python. -/
def isDictV : Val → Bool
  | Val.dict _ => true
  | _ => false

/-- Models `d.get(k)` on a Python dict embedded as an association list
(first binding wins; a well-formed dict has no duplicate keys). -/
def alistGet {β : Type} : List (String × β) → String → Option β
  | [], _ => Option.none
  | (k, v) :: rest, key => if k = key then some v else alistGet rest key

/-- Models `d[k] = v` on a Python dict: replace in place, else append
(Python dicts preserve insertion order). -/
def alistSet {β : Type} : List (String × β) → String → β → List (String × β)
  | [], key, val => [(key, val)]
  | (k, v) :: rest, key, val =>
      if k = key then (key, val) :: rest else (k, v) :: alistSet rest key val

/-- Models `d1.update(d2)` on Python dicts: assign every binding of `d2` into
`d1` in order. -/
def dictUpdate {β : Type} (d1 d2 : List (String × β)) : List (String × β) :=
  d2.foldl (fun acc kv => alistSet acc kv.1 kv.2) d1

/-- Find the first occurrence of `sep` in `l`, returning the parts
before and after it. -/
def findSplit (sep : List Char) : List Char → Option (List Char × List Char)
  | [] => Option.none
  | c :: rest =>
      if sep.isPrefixOf (c :: rest) then some ([], (c :: rest).drop sep.length)
      else match findSplit sep rest with
           | some (pre, post) => some (c :: pre, post)
           | Option.none => Option.none

/-- Find the last occurrence of `sep` in `l`. -/
def findSplitLast (sep : List Char) : List Char → Option (List Char × List Char)
  | [] => Option.none
  | c :: rest =>
      match findSplitLast sep rest with
      | some (pre, post) => some (c :: pre, post)
      | Option.none =>
          if sep.isPrefixOf (c :: rest) then some ([], (c :: rest).drop sep.length)
          else Option.none

/-- Python `s.partition(sep)` (first occurrence; `(s, "", "")` when the
separator does not occur). -/
def pyPartition (s sep : String) : String × String × String :=
  match findSplit sep.data s.data with
  | some (pre, post) => (String.mk pre, sep, String.mk post)
  | Option.none => (s, "", "")

/-- Python `s.rpartition(sep)` (last occurrence; `("", "", s)` when the
separator does not occur). -/
def pyRPartition (s sep : String) : String × String × String :=
  match findSplitLast sep.data s.data with
  | some (pre, post) => (String.mk pre, sep, String.mk post)
  | Option.none => ("", "", s)

/-- Python `s.startswith(p)`. -/
def pyStartsWith (s p : String) : Bool :=
  p.data.isPrefixOf s.data

/-- Models `PropertyCache`: a per-property store.  `kind` stands for the
concrete Python type of the cache object (`self.__class__`), used by
`merge` to refuse merging caches of different kinds.  `data` is
`_property_cache_data`. -/
structure PropertyCache where
  kind : String
  data : List (String × Val)

/-- Models `PropertyCache.set`: if the current value under `key` is a truthy
dict and the new value is a dict, the stored dict is updated in place;
otherwise the new value overwrites. -/
def PropertyCache.set (c : PropertyCache) (key : String) (val : Val) : PropertyCache :=
  match (alistGet c.data key).getD Val.none, val with
  | Val.dict d, Val.dict d2 =>
      if !d.isEmpty then ⟨c.kind, alistSet c.data key (Val.dict (dictUpdate d d2))⟩
      else ⟨c.kind, alistSet c.data key val⟩
  | _, _ => ⟨c.kind, alistSet c.data key val⟩

/-- Models `PropertyCache.merge`: refuse (returning `self` unchanged) when the
other cache is not of the same concrete type, else
`self._property_cache_data.update(cache.data)`. -/
def PropertyCache.merge (c other : PropertyCache) : PropertyCache :=
  if other.kind ≠ c.kind then c
  else ⟨c.kind, dictUpdate c.data other.data⟩

/-- Models `PropertyCache.__getattr__`: the stored value, or `None` (implicit
return) when the key was never set. -/
def PropertyCache.getattr (c : PropertyCache) (key : String) : Val :=
  match alistGet c.data key with
  | some v => v
  | Option.none => Val.none

-- Basic association-list lemmas shared by the cache theorems.

theorem alistGet_alistSet_self {β : Type} (m : List (String × β)) (k : String) (v : β) :
    alistGet (alistSet m k v) k = some v := by
  induction m with
  | nil => simp [alistSet, alistGet]
  | cons hd tl ih =>
      obtain ⟨k1, v1⟩ := hd
      by_cases h : k1 = k
      · simp [alistSet, h, alistGet]
      · simp [alistSet, h, alistGet, ih]

theorem alistGet_alistSet_ne {β : Type} (m : List (String × β)) (k k' : String) (v : β)
    (h : k ≠ k') : alistGet (alistSet m k v) k' = alistGet m k' := by
  induction m with
  | nil => simp [alistSet, alistGet, h]
  | cons hd tl ih =>
      obtain ⟨k1, v1⟩ := hd
      by_cases hh : k1 = k
      · subst hh
        simp [alistSet, alistGet, h]
      · simp [alistSet, hh, alistGet, ih]

theorem alistGet_eq_none_of_not_mem {β : Type} (m : List (String × β)) (k : String)
    (h : k ∉ m.map Prod.fst) : alistGet m k = Option.none := by
  induction m with
  | nil => simp [alistGet]
  | cons hd tl ih =>
      obtain ⟨k1, v1⟩ := hd
      simp only [List.map_cons, List.mem_cons, not_or] at h
      have hne : k1 ≠ k := fun hh => h.1 hh.symm
      simp [alistGet, hne, ih h.2]

theorem alistGet_dictUpdate_of_none {β : Type} (m2 m1 : List (String × β)) (k : String)
    (h : alistGet m2 k = Option.none) :
    alistGet (dictUpdate m1 m2) k = alistGet m1 k := by
  induction m2 generalizing m1 with
  | nil => simp [dictUpdate]
  | cons hd tl ih =>
      obtain ⟨k2, v2⟩ := hd
      have hne : k2 ≠ k := by
        intro hh
        simp [alistGet, hh] at h
      have htl : alistGet tl k = Option.none := by
        simpa [alistGet, hne] using h
      have : dictUpdate m1 ((k2, v2) :: tl) = dictUpdate (alistSet m1 k2 v2) tl := by
        simp [dictUpdate]
      rw [this, ih _ htl, alistGet_alistSet_ne _ _ _ _ hne]

theorem alistGet_dictUpdate_of_some {β : Type} (m2 m1 : List (String × β)) (k : String)
    (v : β) (hnd : (m2.map Prod.fst).Nodup) (h : alistGet m2 k = some v) :
    alistGet (dictUpdate m1 m2) k = some v := by
  induction m2 generalizing m1 with
  | nil => simp [alistGet] at h
  | cons hd tl ih =>
      obtain ⟨k2, v2⟩ := hd
      simp only [List.map_cons, List.nodup_cons] at hnd
      have hstep : dictUpdate m1 ((k2, v2) :: tl) = dictUpdate (alistSet m1 k2 v2) tl := by
        simp [dictUpdate]
      by_cases hk : k2 = k
      · subst hk
        simp only [alistGet, if_pos rfl] at h
        have htl : alistGet tl k2 = Option.none :=
          alistGet_eq_none_of_not_mem _ _ hnd.1
        rw [hstep, alistGet_dictUpdate_of_none _ _ _ htl,
            alistGet_alistSet_self]
        exact congrArg some (Option.some.inj h)
      · have htl : alistGet tl k = some v := by
          simpa [alistGet, hk] using h
        rw [hstep, ih _ hnd.2 htl]

theorem alistSet_append_of_not_mem {β : Type} (m : List (String × β)) (k : String) (v : β)
    (h : k ∉ m.map Prod.fst) : alistSet m k v = m ++ [(k, v)] := by
  induction m with
  | nil => simp [alistSet]
  | cons hd tl ih =>
      obtain ⟨k1, v1⟩ := hd
      simp only [List.map_cons, List.mem_cons, not_or] at h
      have hne : k1 ≠ k := fun hh => h.1 hh.symm
      simp [alistSet, hne, ih h.2]

theorem foldl_alistSet_append {β : Type} :
    ∀ (m acc : List (String × β)), (m.map Prod.fst).Nodup →
    (∀ key ∈ m.map Prod.fst, key ∉ acc.map Prod.fst) →
    m.foldl (fun acc kv => alistSet acc kv.1 kv.2) acc = acc ++ m := by
  intro m
  induction m with
  | nil => intro acc _ _; simp
  | cons hd tl ih =>
      intro acc hnd hdisj
      obtain ⟨k1, v1⟩ := hd
      simp only [List.map_cons, List.nodup_cons] at hnd
      have hset : alistSet acc k1 v1 = acc ++ [(k1, v1)] :=
        alistSet_append_of_not_mem _ _ _ (hdisj k1 (by simp))
      have hdisj' : ∀ key ∈ tl.map Prod.fst, key ∉ (acc ++ [(k1, v1)]).map Prod.fst := by
        intro key hkey
        simp only [List.map_append, List.mem_append, not_or]
        refine ⟨hdisj key (by simp [hkey]), ?_⟩
        simp only [List.map_cons, List.map_nil, List.mem_singleton]
        intro hh
        exact hnd.1 (hh ▸ hkey)
      calc List.foldl (fun acc kv => alistSet acc kv.1 kv.2) acc ((k1, v1) :: tl)
      _ = List.foldl (fun acc kv => alistSet acc kv.1 kv.2) (acc ++ [(k1, v1)]) tl := by
          simp [hset]
      _ = (acc ++ [(k1, v1)]) ++ tl := ih (acc ++ [(k1, v1)]) hnd.2 hdisj'
      _ = acc ++ (k1, v1) :: tl := by simp

theorem dictUpdate_nil_of_nodup {β : Type} (m : List (String × β))
    (hnd : (m.map Prod.fst).Nodup) : dictUpdate [] m = m := by
  simpa [dictUpdate] using foldl_alistSet_append m [] hnd (by simp)

/-! ## Reference resolver (`PropertyCacheRefResolver`) -/

/-- Exception kinds raised by the embedded code.  Python raises a mix of
`ImportError`/`ModuleNotFoundError` (both of kind `importErr` here),
`AttributeError`, `TypeError`, `KeyError` and plain `Exception`
(`other`). -/
inductive PyErr where
  | importErr
  | attributeErr
  | typeErr
  | keyErr
  | other
deriving DecidableEq

/-- Construction-time failures of `PropertyCacheRefResolver.__init__`:
the invalid-reference message, the unknown-ref-type raise from the
`reftype` property, and the missing checks-dict message. -/
inductive CtorErr where
  | invalidRef
  | unknownRefType
  | missingChecks
deriving DecidableEq

/-- Models `PropertyCacheRefResolver.is_valid_cache_ref`: any string whose
first character is `@` or `$` (the argument is always a string here, so
the `type(refstr) != str` guard cannot fire). -/
def is_valid_cache_ref (refstr : String) : Bool :=
  pyStartsWith refstr "@" || pyStartsWith refstr "$"

/-- Models `PropertyCacheRefResolver.reftype`: `$...` is a variable ref,
`@checks....` a checks ref, anything else raises (embedded as
`Option.none`). -/
def reftype (refstr : String) : Option String :=
  if pyStartsWith refstr "$" then some "variable"
  else if pyStartsWith refstr "@checks." then some "checks"
  else Option.none

/-- Models `PropertyCacheRefResolver.check_name` (only reached on checks
refs). -/
def check_name (refstr : String) : String :=
  (pyPartition (pyPartition refstr "@checks.").2.2 ".").1

/-- Models `PropertyCacheRefResolver._ref_body`: strip the prefix from the
reference string. -/
def ref_body (refstr : String) : String :=
  match reftype refstr with
  | some "variable" => (pyPartition refstr "$").2.2
  | some _ => (pyPartition refstr ("@checks." ++ check_name refstr ++ ".")).2.2
  | Option.none => ""

/-- Models `PropertyCacheRefResolver.property_name` (checks refs only; the
source returns `None` for other ref types). -/
def property_name (refstr : String) : String :=
  (pyPartition (ref_body refstr) ".").1

/-- Models `PropertyCacheRefResolver.property_cache_key` (checks refs only),
with a trailing `:func` stripped. -/
def property_cache_key (refstr : String) : String :=
  (pyPartition (pyPartition (ref_body refstr) ".").2.2 ":").1

/-- Models `PropertyCacheRefResolver.property_cache_value_renderer_function`:
the optional function name after the final colon (empty if absent). -/
def renderer_function (refstr : String) : String :=
  match reftype refstr with
  | some "checks" => (pyPartition (pyPartition (ref_body refstr) ".").2.2 ":").2.2
  | _ => (pyPartition (ref_body refstr) ":").2.2

/-- Abstraction of Python `str()` for the `str` builtin renderer. -/
def pyStrOfVal : Val → String
  | Val.none => "None"
  | Val.bool true => "True"
  | Val.bool false => "False"
  | Val.int n => toString n
  | Val.str s => s
  | Val.vlist _ => "<list>"
  | Val.dict _ => "<dict>"
  | Val.pyclass r => r
  | Val.obj r _ => "<" ++ r ++ " object>"

/-- Extract a list of strings from a Python list (for the comma-space join),
failing on any non-string element. -/
def allStrings : List Val → Option (List String)
  | [] => some []
  | Val.str s :: rest =>
      match allStrings rest with
      | some ss => some (s :: ss)
      | Option.none => Option.none
  | _ :: _ => Option.none

/-- Python comma-space join of a list of strings, raising `TypeError`
otherwise. -/
def commaJoin (v : Val) : Except PyErr Val :=
  match v with
  | Val.vlist l =>
      match allStrings l with
      | some ss => Except.ok (Val.str (String.intercalate ", " ss))
      | Option.none => Except.error PyErr.typeErr
  | _ => Except.error PyErr.typeErr

/-- Models `getattr(builtins, func)(value)`: the embedding models the builtins
`str` and `len`; an unknown name raises `AttributeError` exactly as
`getattr` on the builtins module does. -/
def applyBuiltin (func : String) (v : Val) : Except PyErr Val :=
  if func = "str" then Except.ok (Val.str (pyStrOfVal v))
  else if func = "len" then
    match v with
    | Val.str s => Except.ok (Val.int s.length)
    | Val.vlist l => Except.ok (Val.int l.length)
    | Val.dict d => Except.ok (Val.int d.length)
    | _ => Except.error PyErr.typeErr
  else Except.error PyErr.attributeErr

/-- Models `PropertyCacheRefResolver.apply_renderer_function`: apply the
optional `:func` suffix (`comma_join` or a builtin) to a resolved
value; an empty function name is falsy, so the value passes through. -/
def apply_renderer_function (refstr : String) (v : Val) : Except PyErr Val :=
  let func := renderer_function refstr
  if func ≠ "" then
    if func = "comma_join" then commaJoin v
    else applyBuiltin func v
  else Except.ok v

/-- Models `PropertyCacheRefResolver.__init__` embedded as a constructor
function: validity check, then the checks-reftype-without-checks-dict
guard (evaluating `reftype` can itself raise). -/
def mkResolver (refstr : String) (hasChecks : Bool) : Except CtorErr String :=
  if !is_valid_cache_ref refstr then Except.error CtorErr.invalidRef
  else
    match reftype refstr with
    | Option.none => Except.error CtorErr.unknownRefType
    | some t =>
        if t = "checks" && !hasChecks then Except.error CtorErr.missingChecks
        else Except.ok refstr

/-- The checks collection handed to the resolver: check name ↦ the
check's cache, itself mapping property names to `PropertyCache`
objects (`self.checks[name].cache` then attribute-style access). -/
abbrev Checks : Type := List (String × List (String × PropertyCache))

/-- Models `PropertyCacheRefResolver.resolve`.  For checks refs: look up the
check (`KeyError` if absent), fetch its cache attribute for the
property name (`getattr` returns `None` if never set, and the
subsequent `getattr(None, key)` raises `AttributeError`), then fetch
the cache key (absent ↦ `None`).  A `None` value short-circuits before
the renderer function is applied. -/
def resolve (refstr : String) (vars : String → Val) (checks : Option Checks) :
    Except PyErr Val :=
  match reftype refstr with
  | some t =>
      if t = "checks" then
        match checks with
        | Option.none => Except.error PyErr.typeErr
        | some cs =>
            match alistGet cs (check_name refstr) with
            | Option.none => Except.error PyErr.keyErr
            | some check_cache =>
                match alistGet check_cache (property_name refstr) with
                | Option.none => Except.error PyErr.attributeErr
                | some property_cache =>
                    match PropertyCache.getattr property_cache (property_cache_key refstr) with
                    | Val.none => Except.ok Val.none
                    | v => apply_renderer_function refstr v
      else
        let varname := (pyPartition (pyPartition refstr "$").2.2 ":").1
        match vars varname with
        | Val.none => Except.ok Val.none
        | v => apply_renderer_function refstr v
  | Option.none => Except.error PyErr.other

/-! ## Import cache and dynamic lookups (`YPropertyBase`) -/

/-- The slice of `YDefsContext` the dynamic lookups touch: the
`import_cache` attribute, `Option.none` while unset (attribute-style
reads of a `YDefsContext` return `None` for unknown keys). -/
structure RunContext where
  importCache : Option (List (String × Val))

/-- Evaluation state threaded through the lookups: the optional context
(`self.context` may be `None`), a source of fresh object identities for
class instantiation, and a ghost counter of how many times a lookup ran
its full (`from_cache=False`) resolution path. -/
structure St where
  ctx : Option RunContext
  fresh : Nat
  work : Nat

/-- The Python world the importer sees: module path ↦ module attributes
and class repr ↦ instance attributes, both finite tables. -/
structure World where
  modules : List (String × List (String × Val))
  instAttr : List (String × List (String × Val))

/-- Models `YPropertyBase._load_from_import_cache`: `None` when there is no
context or no (or an empty, hence falsy) import cache, else
`import_cache.get(key)`. -/
def loadFromImportCache (ctx : Option RunContext) (key : String) : Val :=
  match ctx with
  | Option.none => Val.none
  | some c =>
      match c.importCache with
      | some cache =>
          if cache.isEmpty then Val.none
          else (alistGet cache key).getD Val.none
      | Option.none => Val.none

/-- Models `YPropertyBase._add_to_import_cache`: no-op without a context; else
assign into the existing cache, or install a fresh one-entry dict when
the cache is absent or empty (falsy). -/
def addToImportCache (ctx : Option RunContext) (key : String) (v : Val) :
    Option RunContext :=
  match ctx with
  | Option.none => Option.none
  | some c =>
      match c.importCache with
      | some cache =>
          if cache.isEmpty then some ⟨some [(key, v)]⟩
          else some ⟨some (alistSet cache key v)⟩
      | Option.none => some ⟨some [(key, v)]⟩

/-- Whether the import cache holds an entry under `key` (key presence,
as opposed to the truthiness test the source performs). -/
def importCacheMem (ctx : Option RunContext) (key : String) : Bool :=
  match ctx with
  | some c =>
      match c.importCache with
      | some cache => (alistGet cache key).isSome
      | Option.none => false
  | Option.none => false

/-- Models `import_str.rpartition('.')[0]`: the module (or class) path. -/
def modOf (s : String) : String := (pyRPartition s ".").1

/-- Models `import_str.rpartition('.')[2]`: the target segment. -/
def targetOf (s : String) : String := (pyRPartition s ".").2.2

/-- Abstraction of Python `str()`/repr on the class object, used to
derive the `"{}.object"` instance-cache key (the source only ever
formats the class object here). -/
def pyRepr : Val → String
  | Val.pyclass r => r
  | v => pyStrOfVal v

/-- Models `YPropertyBase.get_cls`: return a truthy cached entry, else import
the module (`importErr` when missing), fetch the class attribute
(`AttributeError` re-raised as-is when missing) and memoize it under
the identifier. -/
def get_cls (w : World) (st : St) (s : String) : Except PyErr (Val × St) :=
  let cached := loadFromImportCache st.ctx s
  if truthy cached then Except.ok (cached, st)
  else
    let st1 : St := ⟨st.ctx, st.fresh, st.work + 1⟩
    match alistGet w.modules (modOf s) with
    | Option.none => Except.error PyErr.importErr
    | some attrs =>
        match alistGet attrs (targetOf s) with
        | Option.none => Except.error PyErr.attributeErr
        | some ret =>
            Except.ok (ret, ⟨addToImportCache st1.ctx s ret, st1.fresh, st1.work⟩)

/-- Models `YPropertyBase.get_property`: return a truthy cached entry, else
resolve the class for the prefix, reuse (or construct and memoize) the
per-class instance under the `"{}.object"` key, fetch the attribute on
the instance and memoize the result under the identifier. -/
def get_property (w : World) (st : St) (s : String) : Except PyErr (Val × St) :=
  let cached := loadFromImportCache st.ctx s
  if truthy cached then Except.ok (cached, st)
  else
    let st1 : St := ⟨st.ctx, st.fresh, st.work + 1⟩
    match get_cls w st1 (modOf s) with
    | Except.error e => Except.error e
    | Except.ok (cls, st2) =>
        let key := pyRepr cls ++ ".object"
        let instCached := loadFromImportCache st2.ctx key
        match
          (if truthy instCached then Except.ok (instCached, st2)
           else
             match cls with
             | Val.pyclass r =>
                 Except.ok (Val.obj r st2.fresh,
                   (⟨addToImportCache st2.ctx key (Val.obj r st2.fresh),
                     st2.fresh + 1, st2.work⟩ : St))
             | _ => Except.error PyErr.typeErr) with
        | Except.error e => Except.error e
        | Except.ok (cls_inst, st3) =>
            match cls_inst with
            | Val.obj r _ =>
                match alistGet ((alistGet w.instAttr r).getD []) (targetOf s) with
                | Option.none => Except.error PyErr.attributeErr
                | some ret =>
                    Except.ok (ret, ⟨addToImportCache st3.ctx s ret, st3.fresh, st3.work⟩)
            | _ => Except.error PyErr.attributeErr

/-- Models `YPropertyBase.get_attribute`: imports the module and
fetches the module-level attribute; an `AttributeError` is converted to
`ImportError` (the ystruct caller swallows `AttributeError`).  Note
that the memoisation table is neither consulted nor written here. -/
def get_attribute (w : World) (st : St) (s : String) : Except PyErr (Val × St) :=
  match alistGet w.modules (modOf s) with
  | Option.none => Except.error PyErr.importErr
  | some attrs =>
      match alistGet attrs (targetOf s) with
      | Option.none => Except.error PyErr.importErr
      | some ret => Except.ok (ret, ⟨st.ctx, st.fresh, st.work + 1⟩)

/-! ## Logical tree evaluator (`LogicalCollectionHandler`) -/

/-- Models `LogicalCollectionHandler.VALID_GROUP_KEYS`, in source order. -/
def VALID_GROUP_KEYS : List String := ["and", "or", "nand", "nor", "xor", "not"]

/-- A logical operator group: its `_override_name` and its members,
each member an iterable of entries.  Entries stand for the boolean an
entry yields (`get_item_result_callback(entry)` when implemented, else
`entry()`). -/
structure LogicalOpGroup where
  name : String
  members : List (List Bool)

/-- Models `LogicalCollectionHandler.group_results`: collect every entry's
boolean across the group's members. -/
def group_results (g : LogicalOpGroup) : List Bool :=
  g.members.flatten

/-- Models `LogicalCollectionHandler.run_logical_op_group`: dispatch on the
group's name; `and` ↦ `all`, `or` ↦ `any`, `nand`/`not` ↦ `not all`,
`nor` ↦ `not any`, anything else raises the unknown-operator error. -/
def run_logical_op_group (g : LogicalOpGroup) : Except String Bool :=
  if g.name = "and" then Except.ok ((group_results g).all id)
  else if g.name = "or" then Except.ok ((group_results g).any id)
  else if g.name = "nand" ∨ g.name = "not" then Except.ok (!(group_results g).all id)
  else if g.name = "nor" then Except.ok (!(group_results g).any id)
  else Except.error ("unknown logical operator " ++ g.name ++ " found")

/-- An ungrouped child node at a level: its `_override_name` and the
booleans its `run_single` evaluation produces. -/
structure SubItem where
  name : String
  singleResults : List Bool

/-- An item of a level: for each of the six operator attributes, the
member lists of the group stored there (if any) — `getattr(item, op)` —
plus the item's children, iterated for ungrouped evaluation. -/
structure LevelItem where
  groups : List (String × List (List Bool))
  subitems : List SubItem

/-- Models `LogicalCollectionHandler.run_op_groups`, recursing over the key
list: for each valid group key present on the item, evaluate the group
and collect its boolean (a boolean result is never `None`, so the
`is not None` guard always appends). -/
def run_op_groups_aux (item : LevelItem) : List String → Except String (List Bool)
  | [] => Except.ok []
  | op :: rest =>
      match alistGet item.groups op with
      | Option.none => run_op_groups_aux item rest
      | some ms =>
          match run_logical_op_group ⟨op, ms⟩ with
          | Except.error e => Except.error e
          | Except.ok r =>
              match run_op_groups_aux item rest with
              | Except.error e => Except.error e
              | Except.ok rs => Except.ok (r :: rs)

/-- Models `LogicalCollectionHandler.run_op_groups` over `VALID_GROUP_KEYS`. -/
def run_op_groups (item : LevelItem) : Except String (List Bool) :=
  run_op_groups_aux item VALID_GROUP_KEYS

/-- Models `LogicalCollectionHandler.run_level`: per item, the op-group
results, then `run_single` results of every child whose name is not a
valid group key. -/
def run_level : List LevelItem → Except String (List Bool)
  | [] => Except.ok []
  | item :: rest =>
      match run_op_groups item with
      | Except.error e => Except.error e
      | Except.ok rs =>
          let singles := item.subitems.foldl
            (fun acc sub =>
              if VALID_GROUP_KEYS.contains sub.name then acc
              else acc ++ sub.singleResults) []
          match run_level rest with
          | Except.error e => Except.error e
          | Except.ok more => Except.ok (rs ++ singles ++ more)

/-- Models `LogicalCollectionHandler.run_collection`: AND of every boolean
collected at the top level. -/
def run_collection (root : List LevelItem) : Except String Bool :=
  match run_level root with
  | Except.error e => Except.error e
  | Except.ok rs => Except.ok (rs.all id)

/-! ## Lemmas about `PropertyCache.set` -/

/-- Setting a key that is not currently bound always stores the value
as-is (the current value reads back as falsy `None`). -/
theorem PropertyCache.set_of_miss (c : PropertyCache) (k : String) (v : Val)
    (h : alistGet c.data k = Option.none) :
    c.set k v = ⟨c.kind, alistSet c.data k v⟩ := by
  unfold PropertyCache.set
  rw [h]
  rfl

/-- Setting a non-dict value always overwrites, whatever is currently
stored. -/
theorem PropertyCache.set_of_not_dict (c : PropertyCache) (k : String) (v : Val)
    (hv : isDictV v = false) :
    c.set k v = ⟨c.kind, alistSet c.data k v⟩ := by
  unfold PropertyCache.set
  cases hcur : (alistGet c.data k).getD Val.none <;> cases v <;>
    first
      | rfl
      | simp [isDictV] at hv

/-! ## Claims C1, C6, C10 — the Property Cache -/

/-- C1 counterexample: merging cache B into A where both hold a
map-valued entry under `"k"` does NOT produce A's map extended by B's
map — A's non-colliding sub-key `"a"` is discarded because `merge`
replaces the entry wholesale. -/
theorem C1_merge_cex :
    ¬ (PropertyCache.getattr
        (PropertyCache.merge
          ⟨"PropertyCache", [("k", Val.dict [("a", Val.int 1), ("b", Val.int 2)])]⟩
          ⟨"PropertyCache", [("k", Val.dict [("b", Val.int 3)])]⟩) "k"
      = Val.dict (dictUpdate [("a", Val.int 1), ("b", Val.int 2)] [("b", Val.int 3)])) := by
  intro h
  have h2 : Val.dict [("b", Val.int 3)]
      = Val.dict [("a", Val.int 1), ("b", Val.int 3)] := h
  injection h2 with hl
  injection hl with hhd htl
  injection htl

/-- C1 (amended): merging B into A (same concrete kind) applies
wholesale per-key replacement, not per-key map merge: every key bound
in B ends up with exactly B's value (even when both sides hold maps),
and keys bound only in A keep A's value. -/
theorem C1_merge_wholesale (A B : PropertyCache) (k : String)
    (hkind : B.kind = A.kind) (hnd : (B.data.map Prod.fst).Nodup) :
    (∀ v : Val, alistGet B.data k = some v →
        PropertyCache.getattr (A.merge B) k = v)
    ∧ (alistGet B.data k = Option.none →
        PropertyCache.getattr (A.merge B) k = PropertyCache.getattr A k) := by
  constructor
  · intro v hv
    unfold PropertyCache.merge
    rw [if_neg (by simp [hkind])]
    unfold PropertyCache.getattr
    rw [show (⟨A.kind, dictUpdate A.data B.data⟩ : PropertyCache).data
          = dictUpdate A.data B.data from rfl,
        alistGet_dictUpdate_of_some _ _ _ _ hnd hv]
  · intro hnone
    unfold PropertyCache.merge
    rw [if_neg (by simp [hkind])]
    unfold PropertyCache.getattr
    rw [show (⟨A.kind, dictUpdate A.data B.data⟩ : PropertyCache).data
          = dictUpdate A.data B.data from rfl,
        alistGet_dictUpdate_of_none _ _ _ hnone]

/-- C1 witness: concrete instantiation of the amended merge theorem on
caches of the same kind, exercising both the collision and the
B-absent cases. -/
theorem C1_merge_wholesale_witness :
    PropertyCache.getattr
        (PropertyCache.merge
          ⟨"PropertyCache", [("k", Val.dict [("a", Val.int 1), ("b", Val.int 2)])]⟩
          ⟨"PropertyCache", [("k", Val.dict [("b", Val.int 3)])]⟩) "k"
      = Val.dict [("b", Val.int 3)]
    ∧ PropertyCache.getattr
        (PropertyCache.merge
          ⟨"PropertyCache", [("j", Val.int 9)]⟩
          ⟨"PropertyCache", [("k", Val.dict [("b", Val.int 3)])]⟩) "j"
      = PropertyCache.getattr (⟨"PropertyCache", [("j", Val.int 9)]⟩ : PropertyCache) "j" :=
  ⟨(C1_merge_wholesale ⟨"PropertyCache", [("k", Val.dict [("a", Val.int 1), ("b", Val.int 2)])]⟩
      ⟨"PropertyCache", [("k", Val.dict [("b", Val.int 3)])]⟩ "k" rfl (by simp)).1
      (Val.dict [("b", Val.int 3)]) rfl,
   (C1_merge_wholesale ⟨"PropertyCache", [("j", Val.int 9)]⟩
      ⟨"PropertyCache", [("k", Val.dict [("b", Val.int 3)])]⟩ "j" rfl (by simp)).2 rfl⟩

/-- C6: set/get round-trip on a Property Cache — a non-map value reads
back unchanged, a never-set key reads back as the absent indicator
(`None`) without raising, and two successive map values merge. -/
theorem C6_cache_roundtrip :
    (∀ (c : PropertyCache) (k : String) (v : Val), isDictV v = false →
        PropertyCache.getattr (c.set k v) k = v)
    ∧ (∀ (c : PropertyCache) (k : String), alistGet c.data k = Option.none →
        PropertyCache.getattr c k = Val.none)
    ∧ (∀ (c : PropertyCache) (k : String) (d1 d2 : List (String × Val)),
        alistGet c.data k = Option.none → (d2.map Prod.fst).Nodup →
        PropertyCache.getattr ((c.set k (Val.dict d1)).set k (Val.dict d2)) k
          = Val.dict (dictUpdate d1 d2)) := by
  refine ⟨?_, ?_, ?_⟩
  · intro c k v hv
    rw [PropertyCache.set_of_not_dict c k v hv]
    unfold PropertyCache.getattr
    rw [show (⟨c.kind, alistSet c.data k v⟩ : PropertyCache).data
          = alistSet c.data k v from rfl,
        alistGet_alistSet_self]
  · intro c k h
    unfold PropertyCache.getattr
    rw [h]
  · intro c k d1 d2 hmiss hnd
    rw [PropertyCache.set_of_miss c k _ hmiss]
    have h2 : alistGet (alistSet c.data k (Val.dict d1)) k = some (Val.dict d1) :=
      alistGet_alistSet_self _ _ _
    unfold PropertyCache.set
    rw [show (⟨c.kind, alistSet c.data k (Val.dict d1)⟩ : PropertyCache).data
          = alistSet c.data k (Val.dict d1) from rfl, h2]
    cases d1 with
    | nil =>
        unfold PropertyCache.getattr
        simp only [Option.getD_some, List.isEmpty_nil, Bool.not_true, if_neg,
          Bool.false_eq_true, not_false_eq_true]
        rw [alistGet_alistSet_self, dictUpdate_nil_of_nodup d2 hnd]
    | cons hd tl =>
        unfold PropertyCache.getattr
        simp only [Option.getD_some, List.isEmpty_cons, Bool.not_false, if_pos]
        rw [alistGet_alistSet_self]

/-- C6 witness: the round-trip at concrete inputs — a non-map value, a
probe of a never-set key, and a map-then-map merge. -/
theorem C6_cache_roundtrip_witness :
    PropertyCache.getattr
        (PropertyCache.set ⟨"PropertyCache", []⟩ "x" (Val.int 7)) "x" = Val.int 7
    ∧ PropertyCache.getattr (⟨"PropertyCache", []⟩ : PropertyCache) "y" = Val.none
    ∧ PropertyCache.getattr
        ((PropertyCache.set (PropertyCache.set ⟨"PropertyCache", []⟩
            "k" (Val.dict [("a", Val.int 1)])) "k" (Val.dict [("b", Val.int 2)]))) "k"
      = Val.dict (dictUpdate [("a", Val.int 1)] [("b", Val.int 2)]) :=
  ⟨C6_cache_roundtrip.1 ⟨"PropertyCache", []⟩ "x" (Val.int 7) rfl,
   C6_cache_roundtrip.2.1 ⟨"PropertyCache", []⟩ "y" rfl,
   C6_cache_roundtrip.2.2 ⟨"PropertyCache", []⟩ "k"
     [("a", Val.int 1)] [("b", Val.int 2)] rfl (by simp)⟩

/-- C10: a key explicitly set to `None` is indistinguishable from a key
never set — attribute-style get returns the same absent indicator in
both cases, and a checks-form reference resolving to a stored `None`
yields the same absent result as one whose key was never stored. -/
theorem C10_none_indistinguishable :
    (∀ (c : PropertyCache) (k : String),
        PropertyCache.getattr (c.set k Val.none) k = Val.none)
    ∧ (∀ (c : PropertyCache) (k : String), alistGet c.data k = Option.none →
        PropertyCache.getattr c k = Val.none)
    ∧ (∀ (refstr : String) (vars : String → Val) (cs : Checks)
        (cc : List (String × PropertyCache)) (pc : PropertyCache),
        reftype refstr = some "checks" →
        alistGet cs (check_name refstr) = some cc →
        alistGet cc (property_name refstr) = some pc →
        alistGet pc.data (property_cache_key refstr) = some Val.none →
        resolve refstr vars (some cs) = Except.ok Val.none) := by
  refine ⟨?_, ?_, ?_⟩
  · intro c k
    rw [PropertyCache.set_of_not_dict c k Val.none rfl]
    unfold PropertyCache.getattr
    rw [show (⟨c.kind, alistSet c.data k Val.none⟩ : PropertyCache).data
          = alistSet c.data k Val.none from rfl,
        alistGet_alistSet_self]
  · intro c k h
    unfold PropertyCache.getattr
    rw [h]
  · intro refstr vars cs cc pc hty hcs hcc hpc
    unfold resolve
    rw [hty]
    simp only [if_pos rfl, hcs, hcc, PropertyCache.getattr, hpc, if_true]

/-- C10 witness: a cache with `"k"` stored as `None` and a cache with
no `"k"` at all read back identically, directly and through the
reference resolver. -/
theorem C10_none_indistinguishable_witness :
    PropertyCache.getattr
        (PropertyCache.set ⟨"PropertyCache", []⟩ "k" Val.none) "k" = Val.none
    ∧ PropertyCache.getattr (⟨"PropertyCache", []⟩ : PropertyCache) "k" = Val.none
    ∧ resolve "@checks.c1.p1.k" (fun _ => Val.none)
        (some [("c1", [("p1", ⟨"PropertyCache", [("k", Val.none)]⟩)])])
      = Except.ok Val.none :=
  ⟨C10_none_indistinguishable.1 ⟨"PropertyCache", []⟩ "k",
   C10_none_indistinguishable.2.1 ⟨"PropertyCache", []⟩ "k" rfl,
   C10_none_indistinguishable.2.2 "@checks.c1.p1.k" (fun _ => Val.none)
     [("c1", [("p1", ⟨"PropertyCache", [("k", Val.none)]⟩)])]
     [("p1", ⟨"PropertyCache", [("k", Val.none)]⟩)]
     ⟨"PropertyCache", [("k", Val.none)]⟩
     rfl rfl rfl rfl⟩

/-! ## Claims C4, C8 — the reference grammar and resolution -/

/-- A string starting with `@checks.` starts with `@`. -/
theorem pyStartsWith_at_of_checks (s : String)
    (h : pyStartsWith s "@checks." = true) : pyStartsWith s "@" = true := by
  unfold pyStartsWith at *
  cases hl : s.data with
  | nil => rw [hl] at h; simp [List.isPrefixOf] at h
  | cons c rest =>
      rw [hl] at h
      simp only [List.isPrefixOf, Bool.and_eq_true, beq_iff_eq] at h ⊢
      exact ⟨h.1, trivial⟩

/-- C4 counterexample: `"@foo"` starts with neither `$` nor
`@checks.`, yet `is_valid_cache_ref` accepts it, and resolver
construction fails with the unknown-ref-type error rather than the
invalid-reference error the claim requires. -/
theorem C4_ref_validation_cex :
    is_valid_cache_ref "@foo" = true
    ∧ pyStartsWith "@foo" "$" = false
    ∧ pyStartsWith "@foo" "@checks." = false
    ∧ mkResolver "@foo" true = Except.error CtorErr.unknownRefType
    ∧ mkResolver "@foo" true ≠ Except.error CtorErr.invalidRef := by
  refine ⟨rfl, rfl, rfl, rfl, ?_⟩
  intro h
  have h2 : (Except.error CtorErr.unknownRefType : Except CtorErr String)
      = Except.error CtorErr.invalidRef := h
  injection h2 with hc
  exact absurd hc (by decide)

/-- C4 (amended): `is_valid_cache_ref` accepts exactly the strings
starting with `@` or `$`; construction signals the invalid-reference
error only when the string starts with neither, signals the distinct
unknown-ref-type error for strings starting with `@` but not
`@checks.`, signals the missing-collaborator error for cache-form
strings without a checks collection, and succeeds for `$`-form strings
and for `@checks.`-form strings with a checks collection. -/
theorem C4_ref_validation (s : String) (hasChecks : Bool) :
    (is_valid_cache_ref s = (pyStartsWith s "@" || pyStartsWith s "$"))
    ∧ (pyStartsWith s "@" = false → pyStartsWith s "$" = false →
        mkResolver s hasChecks = Except.error CtorErr.invalidRef)
    ∧ (pyStartsWith s "@" = true → pyStartsWith s "$" = false →
        pyStartsWith s "@checks." = false →
        mkResolver s hasChecks = Except.error CtorErr.unknownRefType)
    ∧ (pyStartsWith s "$" = false → pyStartsWith s "@checks." = true →
        hasChecks = false →
        mkResolver s hasChecks = Except.error CtorErr.missingChecks)
    ∧ (pyStartsWith s "$" = true → mkResolver s hasChecks = Except.ok s)
    ∧ (pyStartsWith s "$" = false → pyStartsWith s "@checks." = true →
        hasChecks = true → mkResolver s hasChecks = Except.ok s) := by
  refine ⟨rfl, ?_, ?_, ?_, ?_, ?_⟩
  · intro h1 h2
    simp [mkResolver, is_valid_cache_ref, h1, h2]
  · intro h1 h2 h3
    simp [mkResolver, is_valid_cache_ref, reftype, h1, h2, h3]
  · intro h2 h3 h4
    have h1 : pyStartsWith s "@" = true := pyStartsWith_at_of_checks s h3
    simp [mkResolver, is_valid_cache_ref, reftype, h1, h2, h3, h4]
  · intro h2
    simp [mkResolver, is_valid_cache_ref, reftype, h2]
  · intro h2 h3 h4
    have h1 : pyStartsWith s "@" = true := pyStartsWith_at_of_checks s h3
    simp [mkResolver, is_valid_cache_ref, reftype, h1, h2, h3, h4]

/-- C4 witness: each construction outcome at a concrete reference
string. -/
theorem C4_ref_validation_witness :
    mkResolver "nope" true = Except.error CtorErr.invalidRef
    ∧ mkResolver "@other.x" true = Except.error CtorErr.unknownRefType
    ∧ mkResolver "@checks.c.p.k" false = Except.error CtorErr.missingChecks
    ∧ mkResolver "$var" false = Except.ok "$var"
    ∧ mkResolver "@checks.c.p.k" true = Except.ok "@checks.c.p.k" :=
  ⟨(C4_ref_validation "nope" true).2.1 (by decide) (by decide),
   (C4_ref_validation "@other.x" true).2.2.1 (by decide) (by decide) (by decide),
   (C4_ref_validation "@checks.c.p.k" false).2.2.2.1 (by decide) (by decide) rfl,
   (C4_ref_validation "$var" false).2.2.2.2.1 (by decide),
   (C4_ref_validation "@checks.c.p.k" true).2.2.2.2.2 (by decide) (by decide) rfl⟩

/-- C8: a resolution that reaches an absent (`None`) value returns the
absent indicator without raising and without applying the optional
`:func` renderer — for cache-form references whose property cache never
set the key, and for variable-form references whose variable resolves
to `None`. -/
theorem C8_absent_short_circuit :
    (∀ (refstr : String) (vars : String → Val) (cs : Checks)
        (cc : List (String × PropertyCache)) (pc : PropertyCache),
        reftype refstr = some "checks" →
        alistGet cs (check_name refstr) = some cc →
        alistGet cc (property_name refstr) = some pc →
        alistGet pc.data (property_cache_key refstr) = Option.none →
        resolve refstr vars (some cs) = Except.ok Val.none)
    ∧ (∀ (refstr : String) (vars : String → Val) (checks : Option Checks),
        reftype refstr = some "variable" →
        vars ((pyPartition (pyPartition refstr "$").2.2 ":").1) = Val.none →
        resolve refstr vars checks = Except.ok Val.none) := by
  constructor
  · intro refstr vars cs cc pc hty hcs hcc hpc
    unfold resolve
    rw [hty]
    simp only [if_pos rfl, hcs, hcc, PropertyCache.getattr, hpc, if_true]
  · intro refstr vars checks hty hvar
    unfold resolve
    rw [hty]
    simp only [if_neg (show ¬("variable" = "checks") by decide), hvar]

/-- C8 witness: a cache-form reference with an unset cache key and a
`:int` renderer that the model would reject if applied, and a
variable-form reference with an absent variable and a `:badfunc`
renderer — both resolve to absent. -/
theorem C8_absent_short_circuit_witness :
    resolve "@checks.c1.p1.missing:int" (fun _ => Val.none)
        (some [("c1", [("p1", ⟨"PropertyCache", [("other", Val.int 1)]⟩)])])
      = Except.ok Val.none
    ∧ resolve "$host:badfunc" (fun _ => Val.none) Option.none = Except.ok Val.none :=
  ⟨C8_absent_short_circuit.1 "@checks.c1.p1.missing:int" (fun _ => Val.none)
     [("c1", [("p1", ⟨"PropertyCache", [("other", Val.int 1)]⟩)])]
     [("p1", ⟨"PropertyCache", [("other", Val.int 1)]⟩)]
     ⟨"PropertyCache", [("other", Val.int 1)]⟩ rfl rfl rfl rfl,
   C8_absent_short_circuit.2 "$host:badfunc" (fun _ => Val.none) Option.none rfl rfl⟩

/-! ## Claims C7, C3 — the logical tree evaluator -/

/-- C7: the four implemented combinators — `and` is conjunction (true
on the empty member list), `or` is disjunction (false on the empty
list), `nand` and `not` are negated conjunction (false on the empty
list), `nor` is negated disjunction (true on the empty list). -/
theorem C7_operator_semantics (ms : List (List Bool)) :
    (run_logical_op_group ⟨"and", ms⟩ = Except.ok (ms.flatten.all id))
    ∧ (run_logical_op_group ⟨"or", ms⟩ = Except.ok (ms.flatten.any id))
    ∧ (run_logical_op_group ⟨"nand", ms⟩ = Except.ok (!ms.flatten.all id))
    ∧ (run_logical_op_group ⟨"not", ms⟩ = Except.ok (!ms.flatten.all id))
    ∧ (run_logical_op_group ⟨"nor", ms⟩ = Except.ok (!ms.flatten.any id))
    ∧ (ms.flatten.all id = true ↔ ∀ b ∈ ms.flatten, b = true)
    ∧ (ms.flatten.any id = true ↔ ∃ b ∈ ms.flatten, b = true)
    ∧ (run_logical_op_group ⟨"and", []⟩ = Except.ok true)
    ∧ (run_logical_op_group ⟨"or", []⟩ = Except.ok false)
    ∧ (run_logical_op_group ⟨"nand", []⟩ = Except.ok false)
    ∧ (run_logical_op_group ⟨"not", []⟩ = Except.ok false)
    ∧ (run_logical_op_group ⟨"nor", []⟩ = Except.ok true) := by
  refine ⟨rfl, rfl, rfl, rfl, rfl, ?_, ?_, rfl, rfl, rfl, rfl, rfl⟩
  · simp [List.all_eq_true]
  · simp [List.any_eq_true]

/-- The five operator names with a combinator branch always evaluate
without error. -/
theorem run_logical_op_group_ok_of_dispatched (op : String) (ms : List (List Bool))
    (h : op = "and" ∨ op = "or" ∨ op = "nand" ∨ op = "not" ∨ op = "nor") :
    ∃ r, run_logical_op_group ⟨op, ms⟩ = Except.ok r := by
  rcases h with h | h | h | h | h <;> subst h
  · exact ⟨_, rfl⟩
  · exact ⟨_, rfl⟩
  · exact ⟨_, rfl⟩
  · exact ⟨_, rfl⟩
  · exact ⟨_, rfl⟩

/-- Models `run_op_groups_aux` succeeds whenever every group actually present
under a key of the list evaluates without error. -/
theorem run_op_groups_aux_ok (item : LevelItem) :
    ∀ keys : List String,
    (∀ op ∈ keys, ∀ ms, alistGet item.groups op = some ms →
        ∃ r, run_logical_op_group ⟨op, ms⟩ = Except.ok r) →
    ∃ rs, run_op_groups_aux item keys = Except.ok rs := by
  intro keys
  induction keys with
  | nil => intro _; exact ⟨[], rfl⟩
  | cons op rest ih =>
      intro h
      cases halist : alistGet item.groups op with
      | none =>
          obtain ⟨rs, hrs⟩ := ih (fun o ho ms hms => h o (List.mem_cons_of_mem _ ho) ms hms)
          exact ⟨rs, by simp [run_op_groups_aux, halist, hrs]⟩
      | some ms =>
          obtain ⟨r, hr⟩ := h op (List.mem_cons_self _ _) ms halist
          obtain ⟨rs, hrs⟩ := ih (fun o ho ms hms => h o (List.mem_cons_of_mem _ ho) ms hms)
          exact ⟨r :: rs, by simp [run_op_groups_aux, halist, hr, hrs]⟩

/-- An item with no `xor` group never aborts its op-group pass: the
other five dispatchable keys all have combinator branches, and group
keys outside `VALID_GROUP_KEYS` are never queried at all. -/
theorem run_op_groups_ok_of_no_xor (item : LevelItem)
    (hx : alistGet item.groups "xor" = Option.none) :
    ∃ rs, run_op_groups item = Except.ok rs := by
  apply run_op_groups_aux_ok
  intro op hop ms hms
  fin_cases hop
  · exact run_logical_op_group_ok_of_dispatched _ ms (Or.inl rfl)
  · exact run_logical_op_group_ok_of_dispatched _ ms (Or.inr (Or.inl rfl))
  · exact run_logical_op_group_ok_of_dispatched _ ms (Or.inr (Or.inr (Or.inl rfl)))
  · exact run_logical_op_group_ok_of_dispatched _ ms
      (Or.inr (Or.inr (Or.inr (Or.inr rfl))))
  · rw [hx] at hms
    cases hms
  · exact run_logical_op_group_ok_of_dispatched _ ms
      (Or.inr (Or.inr (Or.inr (Or.inl rfl))))

/-- A level of items none of which carries an `xor` group evaluates to
a result list without error. -/
theorem run_level_ok_of_no_xor :
    ∀ root : List LevelItem,
    (∀ item ∈ root, alistGet item.groups "xor" = Option.none) →
    ∃ rs, run_level root = Except.ok rs := by
  intro root
  induction root with
  | nil => intro _; exact ⟨[], rfl⟩
  | cons item rest ih =>
      intro h
      obtain ⟨rs, hrs⟩ := run_op_groups_ok_of_no_xor item (h item (by simp))
      obtain ⟨more, hmore⟩ := ih (fun it hit => h it (List.mem_cons_of_mem _ hit))
      refine ⟨rs ++ (item.subitems.foldl
        (fun acc sub =>
          if VALID_GROUP_KEYS.contains sub.name then acc
          else acc ++ sub.singleResults) []) ++ more, ?_⟩
      simp [run_level, hrs, hmore]

/-- An `xor` group present on an item aborts the op-group pass with the
unknown-operator error (the `xor` key is in `VALID_GROUP_KEYS` but has
no combinator branch). -/
theorem run_op_groups_error_of_xor (item : LevelItem) (ms : List (List Bool))
    (hx : alistGet item.groups "xor" = some ms) :
    run_op_groups item
      = Except.error ("unknown logical operator " ++ "xor" ++ " found") := by
  unfold run_op_groups VALID_GROUP_KEYS
  cases h1 : alistGet item.groups "and" <;>
  cases h2 : alistGet item.groups "or" <;>
  cases h3 : alistGet item.groups "nand" <;>
  cases h4 : alistGet item.groups "nor" <;>
    simp [run_op_groups_aux, h1, h2, h3, h4, hx, run_logical_op_group]

/-- C3 counterexample: a tree containing a group whose key `"foo"` is
outside the six valid keys evaluates to completion and returns the
boolean verdict `true` — no unknown-operator error is signalled,
because `run_level` routes nodes with non-valid names to `run_single`
and the op-group dispatcher only ever queries the six valid keys. -/
theorem C3_unknown_group_cex :
    run_collection [⟨[("foo", [[false]])], [⟨"foo", [true]⟩]⟩] = Except.ok true := rfl

/-- C3 (amended): `run_logical_op_group` signals the unknown-operator
error exactly for group names without a combinator branch — any name
outside `{and, or, nand, not, nor}`, including the nominally valid
`xor`; tree evaluation never dispatches a key outside the six to it, so
a tree whose items carry no `xor` group always completes with a boolean
verdict, while an `xor` group aborts the op-group pass with the
unknown-operator error. -/
theorem C3_unknown_group_key :
    (∀ (name : String) (ms : List (List Bool)),
        name ≠ "and" → name ≠ "or" → name ≠ "nand" → name ≠ "not" → name ≠ "nor" →
        run_logical_op_group ⟨name, ms⟩
          = Except.error ("unknown logical operator " ++ name ++ " found"))
    ∧ (∀ root : List LevelItem,
        (∀ item ∈ root, alistGet item.groups "xor" = Option.none) →
        ∃ b, run_collection root = Except.ok b)
    ∧ (∀ (item : LevelItem) (ms : List (List Bool)),
        alistGet item.groups "xor" = some ms →
        run_op_groups item
          = Except.error ("unknown logical operator " ++ "xor" ++ " found")) := by
  refine ⟨?_, ?_, ?_⟩
  · intro name ms h1 h2 h3 h4 h5
    simp [run_logical_op_group, h1, h2, h3, h4, h5]
  · intro root h
    obtain ⟨rs, hrs⟩ := run_level_ok_of_no_xor root h
    exact ⟨rs.all id, by simp [run_collection, hrs]⟩
  · intro item ms hx
    exact run_op_groups_error_of_xor item ms hx

/-- C3 witness: the unknown-operator error at the concrete name `xor`,
a concrete no-`xor` tree completing with a verdict, and a concrete item
whose `xor` group aborts the op-group pass. -/
theorem C3_unknown_group_key_witness :
    run_logical_op_group ⟨"xor", [[true]]⟩
      = Except.error ("unknown logical operator " ++ "xor" ++ " found")
    ∧ (run_collection [⟨[("and", [[true]])], [⟨"p", [true]⟩]⟩] = Except.ok true
        ∨ run_collection [⟨[("and", [[true]])], [⟨"p", [true]⟩]⟩] = Except.ok false)
    ∧ run_op_groups ⟨[("xor", [[true, false]])], []⟩
      = Except.error ("unknown logical operator " ++ "xor" ++ " found") := by
  refine ⟨?_, ?_, ?_⟩
  · exact C3_unknown_group_key.1 "xor" [[true]]
      (by decide) (by decide) (by decide) (by decide) (by decide)
  · obtain ⟨b, hb⟩ := C3_unknown_group_key.2.1 [⟨[("and", [[true]])], [⟨"p", [true]⟩]⟩]
      (by
        intro it hit
        rw [List.mem_singleton] at hit
        subst hit
        rfl)
    cases b
    · exact Or.inr hb
    · exact Or.inl hb
  · exact C3_unknown_group_key.2.2 ⟨[("xor", [[true, false]])], []⟩ [[true, false]] rfl

/-! ## Claims C2, C5, C9 — dynamic lookups and the import cache -/

/-- Assigning into a dict never leaves it empty. -/
theorem alistSet_isEmpty {β : Type} (m : List (String × β)) (k : String) (v : β) :
    (alistSet m k v).isEmpty = false := by
  cases m with
  | nil => rfl
  | cons hd tl =>
      obtain ⟨k1, v1⟩ := hd
      by_cases h : k1 = k <;> simp [alistSet, h]

/-- Reading back a key just saved through `_add_to_import_cache` (with
a context present) yields the saved value. -/
theorem loadFromImportCache_addToImportCache (cc : RunContext) (k : String) (v : Val) :
    loadFromImportCache (addToImportCache (some cc) k v) k = v := by
  cases hic : cc.importCache with
  | none => simp [addToImportCache, loadFromImportCache, hic, alistGet]
  | some cache =>
      by_cases he : cache.isEmpty
      · simp [addToImportCache, loadFromImportCache, hic, he, alistGet]
      · simp [addToImportCache, loadFromImportCache, hic, he,
          alistSet_isEmpty, alistGet_alistSet_self]

/-- A key saved through `_add_to_import_cache` (with a context present)
is present in the import cache. -/
theorem importCacheMem_addToImportCache (cc : RunContext) (k : String) (v : Val) :
    importCacheMem (addToImportCache (some cc) k v) k = true := by
  cases hic : cc.importCache with
  | none => simp [addToImportCache, importCacheMem, hic, alistGet]
  | some cache =>
      by_cases he : cache.isEmpty
      · simp [addToImportCache, importCacheMem, hic, he, alistGet]
      · simp [addToImportCache, importCacheMem, hic, he, alistGet_alistSet_self]

/-- C5 counterexample: resolving the class `"m.C"` in a world where
module `"m"` exists but has no attribute `"C"` makes `get_cls` re-raise
the original `AttributeError` — it is NOT normalized to the import
error kind. -/
theorem C5_import_error_cex :
    get_cls ⟨[("m", [("a", Val.int 1)])], []⟩ ⟨some ⟨Option.none⟩, 0, 0⟩ "m.C"
      = Except.error PyErr.attributeErr
    ∧ get_cls ⟨[("m", [("a", Val.int 1)])], []⟩ ⟨some ⟨Option.none⟩, 0, 0⟩ "m.C"
      ≠ Except.error PyErr.importErr := by
  refine ⟨rfl, ?_⟩
  intro h
  have h2 : (Except.error PyErr.attributeErr : Except PyErr (Val × St))
      = Except.error PyErr.importErr := h
  injection h2 with hc
  exact absurd hc (by decide)

/-- C5 (amended): `get_cls` re-raises class-resolution failures
unchanged — a bad module path surfaces as the import-error kind, a
missing class attribute as the attribute-error kind; the normalization
of attribute-not-found to the import-error kind happens only in
module-attribute resolution (`get_attribute`). -/
theorem C5_import_error_kinds (w : World) (st : St) (s : String) :
    (truthy (loadFromImportCache st.ctx s) = false →
        alistGet w.modules (modOf s) = Option.none →
        get_cls w st s = Except.error PyErr.importErr)
    ∧ (∀ attrs : List (String × Val),
        truthy (loadFromImportCache st.ctx s) = false →
        alistGet w.modules (modOf s) = some attrs →
        alistGet attrs (targetOf s) = Option.none →
        get_cls w st s = Except.error PyErr.attributeErr)
    ∧ (alistGet w.modules (modOf s) = Option.none →
        get_attribute w st s = Except.error PyErr.importErr)
    ∧ (∀ attrs : List (String × Val),
        alistGet w.modules (modOf s) = some attrs →
        alistGet attrs (targetOf s) = Option.none →
        get_attribute w st s = Except.error PyErr.importErr) := by
  refine ⟨?_, ?_, ?_, ?_⟩
  · intro htr hmod
    simp [get_cls, htr, hmod]
  · intro attrs htr hmod hattr
    simp [get_cls, htr, hmod, hattr]
  · intro hmod
    simp [get_attribute, hmod]
  · intro attrs hmod hattr
    simp [get_attribute, hmod, hattr]

/-- C5 witness: the four error shapes at concrete inputs — a missing
module and a missing attribute, through both `get_cls` and
`get_attribute`. -/
theorem C5_import_error_kinds_witness :
    get_cls ⟨[("m", [("a", Val.int 1)])], []⟩ ⟨some ⟨Option.none⟩, 0, 0⟩ "x.C"
      = Except.error PyErr.importErr
    ∧ get_cls ⟨[("m", [("a", Val.int 1)])], []⟩ ⟨some ⟨Option.none⟩, 0, 0⟩ "m.C"
      = Except.error PyErr.attributeErr
    ∧ get_attribute ⟨[("m", [("a", Val.int 1)])], []⟩ ⟨some ⟨Option.none⟩, 0, 0⟩ "x.a"
      = Except.error PyErr.importErr
    ∧ get_attribute ⟨[("m", [("a", Val.int 1)])], []⟩ ⟨some ⟨Option.none⟩, 0, 0⟩ "m.b"
      = Except.error PyErr.importErr :=
  ⟨(C5_import_error_kinds ⟨[("m", [("a", Val.int 1)])], []⟩
      ⟨some ⟨Option.none⟩, 0, 0⟩ "x.C").1 rfl rfl,
   (C5_import_error_kinds ⟨[("m", [("a", Val.int 1)])], []⟩
      ⟨some ⟨Option.none⟩, 0, 0⟩ "m.C").2.1 [("a", Val.int 1)] rfl rfl rfl,
   (C5_import_error_kinds ⟨[("m", [("a", Val.int 1)])], []⟩
      ⟨some ⟨Option.none⟩, 0, 0⟩ "x.a").2.2.1 rfl,
   (C5_import_error_kinds ⟨[("m", [("a", Val.int 1)])], []⟩
      ⟨some ⟨Option.none⟩, 0, 0⟩ "m.b").2.2.2 [("a", Val.int 1)] rfl rfl⟩

/-- C2 counterexample: a successful module-attribute resolution leaves
the import cache untouched — after `get_attribute` of `"m.a"` the
returned state's context is the unchanged input context, whose import
cache does not contain the identifier. -/
theorem C2_attribute_not_cached_cex :
    get_attribute ⟨[("m", [("a", Val.int 5)])], []⟩ ⟨some ⟨some []⟩, 0, 0⟩ "m.a"
      = Except.ok (Val.int 5, ⟨some ⟨some []⟩, 0, 1⟩)
    ∧ importCacheMem (some ⟨some []⟩) "m.a" = false :=
  ⟨rfl, rfl⟩

/-- C2 (amended): successful class resolutions (`get_cls`) and
instance-property resolutions (`get_property`) write their result into
the import cache keyed by the exact identifier string, and a second
resolution of the same identifier returns the identical cached object
with the state unchanged when the cached value is truthy; successful
module-attribute resolutions (`get_attribute`) never touch the import
cache. -/
theorem C2_import_cache_memoization :
    (∀ (w : World) (st : St) (s : String) (cc : RunContext)
        (attrs : List (String × Val)) (v : Val),
        st.ctx = some cc →
        truthy (loadFromImportCache st.ctx s) = false →
        alistGet w.modules (modOf s) = some attrs →
        alistGet attrs (targetOf s) = some v →
        truthy v = true →
        get_cls w st s
          = Except.ok (v, ⟨addToImportCache st.ctx s v, st.fresh, st.work + 1⟩)
        ∧ loadFromImportCache (addToImportCache st.ctx s v) s = v
        ∧ get_cls w ⟨addToImportCache st.ctx s v, st.fresh, st.work + 1⟩ s
          = Except.ok (v, ⟨addToImportCache st.ctx s v, st.fresh, st.work + 1⟩))
    ∧ (∀ (w : World) (st : St) (s : String) (cache : List (String × Val))
        (r : String) (n : Nat) (v : Val),
        st.ctx = some ⟨some cache⟩ →
        cache.isEmpty = false →
        alistGet cache s = Option.none →
        alistGet cache (modOf s) = some (Val.pyclass r) →
        alistGet cache (r ++ ".object") = some (Val.obj r n) →
        alistGet ((alistGet w.instAttr r).getD []) (targetOf s) = some v →
        truthy v = true →
        get_property w st s
          = Except.ok (v, ⟨addToImportCache st.ctx s v, st.fresh, st.work + 1⟩)
        ∧ get_property w ⟨addToImportCache st.ctx s v, st.fresh, st.work + 1⟩ s
          = Except.ok (v, ⟨addToImportCache st.ctx s v, st.fresh, st.work + 1⟩))
    ∧ (∀ (w : World) (st : St) (s : String) (v : Val) (st2 : St),
        get_attribute w st s = Except.ok (v, st2) → st2.ctx = st.ctx) := by
  refine ⟨?_, ?_, ?_⟩
  · intro w st s cc attrs v hctx htr hmod hattr hv
    have hload : loadFromImportCache (addToImportCache st.ctx s v) s = v := by
      rw [hctx]
      exact loadFromImportCache_addToImportCache cc s v
    refine ⟨?_, hload, ?_⟩
    · simp [get_cls, htr, hmod, hattr]
    · simp [get_cls, hload, hv]
  · intro w st s cache r n v hctx hce hs hcls hinst hattr hv
    have htr : truthy (loadFromImportCache st.ctx s) = false := by
      simp [loadFromImportCache, hctx, hce, hs, truthy]
    have hload2 : loadFromImportCache (addToImportCache st.ctx s v) s = v := by
      rw [hctx]
      exact loadFromImportCache_addToImportCache ⟨some cache⟩ s v
    constructor
    · simp [get_property, get_cls, loadFromImportCache, hctx, hce, hs, hcls,
        hinst, hattr, pyRepr, truthy]
    · simp [get_property, hload2, hv]
  · intro w st s v st2 h
    unfold get_attribute at h
    split at h
    · cases h
    · split at h
      · cases h
      · injection h with h2
        have h3 : st2 = ⟨st.ctx, st.fresh, st.work + 1⟩ := (congrArg Prod.snd h2).symm
        rw [h3]

/-- C2 witness: concrete memoization round-trips through `get_cls` and
`get_property`, and a concrete `get_attribute` success that leaves the
context unchanged. -/
theorem C2_import_cache_memoization_witness :
    (get_cls ⟨[("m", [("K", Val.pyclass "K")])], []⟩ ⟨some ⟨Option.none⟩, 0, 0⟩ "m.K"
        = Except.ok (Val.pyclass "K",
            ⟨addToImportCache (some ⟨Option.none⟩) "m.K" (Val.pyclass "K"), 0, 1⟩)
      ∧ loadFromImportCache
          (addToImportCache (some ⟨Option.none⟩) "m.K" (Val.pyclass "K")) "m.K"
        = Val.pyclass "K"
      ∧ get_cls ⟨[("m", [("K", Val.pyclass "K")])], []⟩
          ⟨addToImportCache (some ⟨Option.none⟩) "m.K" (Val.pyclass "K"), 0, 1⟩ "m.K"
        = Except.ok (Val.pyclass "K",
            ⟨addToImportCache (some ⟨Option.none⟩) "m.K" (Val.pyclass "K"), 0, 1⟩))
    ∧ (get_property ⟨[], [("K", [("p", Val.int 3)])]⟩
          ⟨some ⟨some [("pkg.K", Val.pyclass "K"), ("K.object", Val.obj "K" 7)]⟩, 0, 0⟩
          "pkg.K.p"
        = Except.ok (Val.int 3,
            ⟨addToImportCache
              (some ⟨some [("pkg.K", Val.pyclass "K"), ("K.object", Val.obj "K" 7)]⟩)
              "pkg.K.p" (Val.int 3), 0, 1⟩)
      ∧ get_property ⟨[], [("K", [("p", Val.int 3)])]⟩
          ⟨addToImportCache
            (some ⟨some [("pkg.K", Val.pyclass "K"), ("K.object", Val.obj "K" 7)]⟩)
            "pkg.K.p" (Val.int 3), 0, 1⟩ "pkg.K.p"
        = Except.ok (Val.int 3,
            ⟨addToImportCache
              (some ⟨some [("pkg.K", Val.pyclass "K"), ("K.object", Val.obj "K" 7)]⟩)
              "pkg.K.p" (Val.int 3), 0, 1⟩))
    ∧ (⟨some ⟨some []⟩, 0, 1⟩ : St).ctx = (⟨some ⟨some []⟩, 0, 0⟩ : St).ctx :=
  ⟨C2_import_cache_memoization.1 ⟨[("m", [("K", Val.pyclass "K")])], []⟩
      ⟨some ⟨Option.none⟩, 0, 0⟩ "m.K" ⟨Option.none⟩ [("K", Val.pyclass "K")]
      (Val.pyclass "K") rfl rfl rfl rfl rfl,
   C2_import_cache_memoization.2.1 ⟨[], [("K", [("p", Val.int 3)])]⟩
      ⟨some ⟨some [("pkg.K", Val.pyclass "K"), ("K.object", Val.obj "K" 7)]⟩, 0, 0⟩
      "pkg.K.p" [("pkg.K", Val.pyclass "K"), ("K.object", Val.obj "K" 7)]
      "K" 7 (Val.int 3) rfl rfl rfl rfl rfl rfl rfl,
   C2_import_cache_memoization.2.2 ⟨[("m", [("a", Val.int 5)])], []⟩
      ⟨some ⟨some []⟩, 0, 0⟩ "m.a" (Val.int 5) ⟨some ⟨some []⟩, 0, 1⟩ rfl⟩

/-- C9: a falsy value stored in the import cache is treated as a cache
miss — the entry is present by key, yet both `get_cls` and
`get_property` run their full resolution again (the ghost work counter
increments and the cache is re-written) instead of returning the
cached value. -/
theorem C9_falsy_treated_as_miss :
    (∀ (w : World) (st : St) (s : String) (cache : List (String × Val))
        (v : Val) (attrs : List (String × Val)) (v2 : Val),
        st.ctx = some ⟨some cache⟩ →
        cache.isEmpty = false →
        alistGet cache s = some v →
        truthy v = false →
        alistGet w.modules (modOf s) = some attrs →
        alistGet attrs (targetOf s) = some v2 →
        importCacheMem st.ctx s = true
        ∧ get_cls w st s
            = Except.ok (v2, ⟨addToImportCache st.ctx s v2, st.fresh, st.work + 1⟩))
    ∧ (∀ (w : World) (st : St) (s : String) (cache : List (String × Val))
        (v : Val) (r : String) (n : Nat) (v2 : Val),
        st.ctx = some ⟨some cache⟩ →
        cache.isEmpty = false →
        alistGet cache s = some v →
        truthy v = false →
        alistGet cache (modOf s) = some (Val.pyclass r) →
        alistGet cache (r ++ ".object") = some (Val.obj r n) →
        alistGet ((alistGet w.instAttr r).getD []) (targetOf s) = some v2 →
        importCacheMem st.ctx s = true
        ∧ get_property w st s
            = Except.ok (v2, ⟨addToImportCache st.ctx s v2, st.fresh, st.work + 1⟩)) := by
  constructor
  · intro w st s cache v attrs v2 hctx hce hs hv hmod hattr
    constructor
    · simp [importCacheMem, hctx, hs]
    · have htr : truthy (loadFromImportCache st.ctx s) = false := by
        simp [loadFromImportCache, hctx, hce, hs, hv]
      simp [get_cls, htr, hmod, hattr]
  · intro w st s cache v r n v2 hctx hce hs hv hcls hinst hattr
    constructor
    · simp [importCacheMem, hctx, hs]
    · have hloadS : loadFromImportCache st.ctx s = v := by
        simp [loadFromImportCache, hctx, hce, hs]
      have hclsLoad : loadFromImportCache st.ctx (modOf s) = Val.pyclass r := by
        simp [loadFromImportCache, hctx, hce, hcls]
      have hinstLoad : loadFromImportCache st.ctx (r ++ ".object") = Val.obj r n := by
        simp [loadFromImportCache, hctx, hce, hinst]
      have t1 : truthy (Val.pyclass r) = true := rfl
      have t2 : truthy (Val.obj r n) = true := rfl
      simp [get_property, get_cls, hloadS, hv, hclsLoad, hinstLoad, hattr,
        pyRepr, t1, t2]

/-- C9 witness: a cached falsy class attribute (`0`) and a cached falsy
instance property (`False`) — both entries are present in the import
cache, and both lookups re-run the full resolution. -/
theorem C9_falsy_treated_as_miss_witness :
    (importCacheMem (some ⟨some [("m.a", Val.int 0)]⟩) "m.a" = true
      ∧ get_cls ⟨[("m", [("a", Val.int 0)])], []⟩
          ⟨some ⟨some [("m.a", Val.int 0)]⟩, 0, 0⟩ "m.a"
        = Except.ok (Val.int 0,
            ⟨addToImportCache (some ⟨some [("m.a", Val.int 0)]⟩) "m.a" (Val.int 0),
              0, 1⟩))
    ∧ (importCacheMem
          (some ⟨some [("pkg.K.p", Val.bool false), ("pkg.K", Val.pyclass "K"),
            ("K.object", Val.obj "K" 7)]⟩) "pkg.K.p" = true
      ∧ get_property ⟨[], [("K", [("p", Val.bool false)])]⟩
          ⟨some ⟨some [("pkg.K.p", Val.bool false), ("pkg.K", Val.pyclass "K"),
            ("K.object", Val.obj "K" 7)]⟩, 0, 0⟩ "pkg.K.p"
        = Except.ok (Val.bool false,
            ⟨addToImportCache
              (some ⟨some [("pkg.K.p", Val.bool false), ("pkg.K", Val.pyclass "K"),
                ("K.object", Val.obj "K" 7)]⟩) "pkg.K.p" (Val.bool false), 0, 1⟩)) :=
  ⟨C9_falsy_treated_as_miss.1 ⟨[("m", [("a", Val.int 0)])], []⟩
      ⟨some ⟨some [("m.a", Val.int 0)]⟩, 0, 0⟩ "m.a" [("m.a", Val.int 0)]
      (Val.int 0) [("a", Val.int 0)] (Val.int 0) rfl rfl rfl rfl rfl rfl,
   C9_falsy_treated_as_miss.2 ⟨[], [("K", [("p", Val.bool false)])]⟩
      ⟨some ⟨some [("pkg.K.p", Val.bool false), ("pkg.K", Val.pyclass "K"),
        ("K.object", Val.obj "K" 7)]⟩, 0, 0⟩ "pkg.K.p"
      [("pkg.K.p", Val.bool false), ("pkg.K", Val.pyclass "K"),
        ("K.object", Val.obj "K" 7)]
      (Val.bool false) "K" 7 (Val.bool false) rfl rfl rfl rfl rfl rfl rfl⟩
